import Mathlib

/-!
Verification of the reactive-dependency core of the `sanfengliao/vue` repository.

The development shallowly embeds the observer module
(`src/core/observer/index.js`: `Observer`, `observe`, `defineReactive`,
`set`) and the `Watcher` class (`addDep`, `cleanupDeps`, `update`, `run`,
`get`, `teardown`).  JavaScript values are modelled by an inductive type
with explicit `NaN` and reference-identity semantics; JavaScript object
state is passed explicitly.  Collaborator modules that are not part of the
analysed sources (`dep.js` subscriber lists, the target stack of
`pushTarget`/`popTarget`, `handleError`) are modelled from the
specification, as noted on each definition.
-/

set_option autoImplicit false

namespace VueReactivity

/-- Model of a JavaScript value as seen by the observer module: primitives
compare structurally, `NaN` is never strictly equal to anything (itself
included), and objects/arrays are references identified by an address. -/
inductive JSValue where
  | undef
  | nullv
  | boolv (b : Bool)
  | numv (n : Int)
  | nanv
  | strv (s : String)
  | ref (addr : Nat)
deriving DecidableEq, Repr

/-- Strict equality `===` of JavaScript: structural on primitives and on
reference addresses, false whenever either side is `NaN`. -/
def jsEq (a b : JSValue) : Bool :=
  if a = JSValue.nanv then false
  else if b = JSValue.nanv then false
  else a == b

/-- Whether the value is `NaN` (equivalently, `v !== v` holds in JS). -/
def isNaNv : JSValue → Bool
  | .nanv => true
  | _ => false

/-- The `isObject` test of `src/core/util`: `typeof v` equal to the object tag and `v` non-null;
in this model exactly the reference values. -/
def isObjectV : JSValue → Bool
  | .ref _ => true
  | _ => false

theorem jsEq_self (v : JSValue) : jsEq v v = !isNaNv v := by
  cases v <;> simp [jsEq, isNaNv]

/-- Observable effects of one invocation of a reactive setter
(`src/core/observer/index.js`, `reactiveSetter`): the closure variable
`val` after the call, how many times `dep.notify()` ran, whether
`observe(newVal)` was invoked to re-wrap the child, how many times the
development-mode `customSetter` ran, and the arguments passed to a
pre-existing setter. -/
structure SetterOut where
  val : JSValue
  notifies : Nat
  observeCalled : Bool
  customSetterCalls : Nat
  setterCalls : List JSValue
deriving DecidableEq, Repr

/-- Embedding of `reactiveSetter` from `defineReactive`
(`src/core/observer/index.js` lines 194-218).  `hasGetter`/`hasSetter`
describe the pre-existing accessors of the property (with `getterVal` the
value such a getter returns), `shallow` and the dev-mode `customSetter`
flags mirror the `defineReactive` parameters, and `val` is the closure
variable holding the stored value. -/
def reactiveSetter (hasGetter hasSetter shallow dev hasCustomSetter : Bool)
    (getterVal val newVal : JSValue) : SetterOut :=
  let value := if hasGetter then getterVal else val
  if jsEq newVal value || (!jsEq newVal newVal && !jsEq value value) then
    { val := val, notifies := 0, observeCalled := false,
      customSetterCalls := 0, setterCalls := [] }
  else
    let cs := if dev && hasCustomSetter then 1 else 0
    if hasGetter && !hasSetter then
      { val := val, notifies := 0, observeCalled := false,
        customSetterCalls := cs, setterCalls := [] }
    else if hasSetter then
      { val := val, notifies := 1, observeCalled := !shallow,
        customSetterCalls := cs, setterCalls := [newVal] }
    else
      { val := newVal, notifies := 1, observeCalled := !shallow,
        customSetterCalls := cs, setterCalls := [] }

/-- C1: for a wrapped object key (a plain data property, so no
pre-existing getter or setter), a write whose new value is strictly equal
to the current value, or where both are `NaN`, leaves all state unchanged
and never notifies the Dep of the key; any other write stores the new value,
calls `observe` on it unless `shallow`, and notifies exactly once. -/
theorem reactiveSetter_change_detection
    (shallow dev hasCS : Bool) (gv val newVal : JSValue) :
    ((jsEq newVal val = true ∨ (isNaNv newVal = true ∧ isNaNv val = true)) →
      reactiveSetter false false shallow dev hasCS gv val newVal =
        { val := val, notifies := 0, observeCalled := false,
          customSetterCalls := 0, setterCalls := [] }) ∧
    ((jsEq newVal val = false ∧ ¬(isNaNv newVal = true ∧ isNaNv val = true)) →
      (reactiveSetter false false shallow dev hasCS gv val newVal).val = newVal ∧
      (reactiveSetter false false shallow dev hasCS gv val newVal).notifies = 1 ∧
      (reactiveSetter false false shallow dev hasCS gv val newVal).observeCalled
        = !shallow) := by
  constructor
  · intro h
    rcases h with h | ⟨h1, h2⟩
    · simp [reactiveSetter, h]
    · simp [reactiveSetter, jsEq_self, h1, h2]
  · intro ⟨h1, h2⟩
    have hcond : (jsEq newVal val || (!jsEq newVal newVal && !jsEq val val))
        = false := by
      rw [h1, jsEq_self, jsEq_self, Bool.not_not, Bool.not_not]
      cases hnew : isNaNv newVal <;> cases hval : isNaNv val <;> simp_all
    simp [reactiveSetter, hcond]

theorem reactiveSetter_change_detection_witness :
    reactiveSetter false false false true false JSValue.undef
        (JSValue.numv 1) (JSValue.numv 1) =
      { val := JSValue.numv 1, notifies := 0, observeCalled := false,
        customSetterCalls := 0, setterCalls := [] } ∧
    (reactiveSetter false false false true false JSValue.undef
        (JSValue.numv 1) (JSValue.numv 2)).val = JSValue.numv 2 := by
  constructor
  · exact (reactiveSetter_change_detection false true false JSValue.undef
      (JSValue.numv 1) (JSValue.numv 1)).1 (Or.inl (by decide))
  · exact ((reactiveSetter_change_detection false true false JSValue.undef
      (JSValue.numv 1) (JSValue.numv 2)).2 (by decide)).1

/-- C8: for an observed key whose original property has a getter but no
setter, every write through the reactive setter leaves the stored value
unchanged, performs no notification, does not re-observe, and invokes no
pre-existing setter: the key is effectively read-only. -/
theorem reactiveSetter_getter_only_readonly
    (hG : Bool) (hS : Bool) (shallow dev hasCS : Bool)
    (gv val newVal : JSValue)
    (h1 : hG = true) (h2 : hS = false) :
    (reactiveSetter hG hS shallow dev hasCS gv val newVal).val = val ∧
    (reactiveSetter hG hS shallow dev hasCS gv val newVal).notifies = 0 ∧
    (reactiveSetter hG hS shallow dev hasCS gv val newVal).observeCalled = false ∧
    (reactiveSetter hG hS shallow dev hasCS gv val newVal).setterCalls = [] := by
  subst h1; subst h2
  simp only [reactiveSetter]
  by_cases hskip :
      (jsEq newVal gv || (!jsEq newVal newVal && !jsEq gv gv)) = true
  · simp [hskip]
  · simp [hskip]

theorem reactiveSetter_getter_only_readonly_witness :
    (reactiveSetter true false false true false
        (JSValue.numv 5) (JSValue.numv 5) (JSValue.numv 9)).val = JSValue.numv 5 ∧
    (reactiveSetter true false false true false
        (JSValue.numv 5) (JSValue.numv 5) (JSValue.numv 9)).notifies = 0 := by
  have h := reactiveSetter_getter_only_readonly true false false true false
    (JSValue.numv 5) (JSValue.numv 5) (JSValue.numv 9) rfl rfl
  exact ⟨h.1, h.2.1⟩

/-- Metadata of a value as inspected by `observe`
(`src/core/observer/index.js` lines 115-139): whether it is an object, a
`VNode` instance, whether it carries an own `__ob__` property that is an
`Observer` instance (with `obId` the identity of that observer), and the
remaining guards of the `shouldObserve` branch. -/
structure ObValue where
  isObject : Bool
  isVNode : Bool
  hasOb : Bool
  obId : Nat
  isArray : Bool
  isPlainObject : Bool
  isExtensible : Bool
  isVue : Bool
deriving DecidableEq, Repr

/-- Result of `observe`: the returned observer (by identity), the
observer-allocation counter after the call (a fresh `Observer` takes the
current counter value as its identity), and whether `vmCount` was bumped
on the returned observer (`asRootData` branch). -/
structure ObserveOut where
  ob : Option Nat
  nextId : Nat
  vmCountBumped : Bool
deriving DecidableEq, Repr

/-- Embedding of `observe` (`src/core/observer/index.js` lines 115-139).
`nextId` is an explicit allocation counter standing for `new Observer(value)`:
the counter advances exactly when a new `Observer` is constructed. -/
def observe (v : ObValue) (asRootData shouldObserve isSSR : Bool)
    (nextId : Nat) : ObserveOut :=
  if !v.isObject || v.isVNode then
    { ob := none, nextId := nextId, vmCountBumped := false }
  else
    let res : Option Nat × Nat :=
      if v.hasOb then (some v.obId, nextId)
      else if shouldObserve && !isSSR && (v.isArray || v.isPlainObject)
          && v.isExtensible && !v.isVue then
        (some nextId, nextId + 1)
      else (none, nextId)
    { ob := res.1, nextId := res.2,
      vmCountBumped := asRootData && res.1.isSome }

/-- C3: observing a value that already carries an `Observer` (an object
that is not a `VNode` with an own `__ob__` Observer) returns that very
observer and allocates no new one, so wrapping is idempotent; observing a
non-object or a `VNode` instance returns nothing and allocates nothing. -/
theorem observe_idempotent_and_guard (v : ObValue)
    (asRootData shouldObserve isSSR : Bool) (n : Nat) :
    (v.isObject = true → v.isVNode = false → v.hasOb = true →
      (observe v asRootData shouldObserve isSSR n).ob = some v.obId ∧
      (observe v asRootData shouldObserve isSSR n).nextId = n) ∧
    (v.isObject = false ∨ v.isVNode = true →
      observe v asRootData shouldObserve isSSR n =
        { ob := none, nextId := n, vmCountBumped := false }) := by
  constructor
  · intro hObj hVN hOb
    simp [observe, hObj, hVN, hOb]
  · intro h
    rcases h with h | h <;> simp [observe, h]

/-- Sample already-observed plain object used by the C3 witness. -/
def sampleObValue : ObValue :=
  { isObject := true, isVNode := false, hasOb := true, obId := 7,
    isArray := false, isPlainObject := true, isExtensible := true,
    isVue := false }

theorem observe_idempotent_and_guard_witness :
    (observe sampleObValue false true false 3).ob = some 7 ∧
    (observe sampleObValue false true false 3).nextId = 3 :=
  (observe_idempotent_and_guard sampleObValue false true false 3).1 rfl rfl rfl

/-- State carried by an `Observer` instance that `set` consults: the
number of vms that have the observed object as root `$data`. -/
structure Obs where
  vmCount : Nat
deriving DecidableEq, Repr

/-- A target of `set`: an array or plain object together with its
optional `__ob__` observer state.  `props` are the own enumerable
properties (the model assumes keys do not collide with
`Object.prototype`, which holds for ordinary data keys). -/
structure Target where
  isArray : Bool
  elems : List JSValue
  props : List (String × JSValue)
  isVue : Bool
  ob : Option Obs
deriving DecidableEq, Repr

/-- A property key passed to `set`: a valid array index or a string. -/
inductive SetKey where
  | idx (n : Nat)
  | name (s : String)
deriving DecidableEq, Repr

/-- String form of a key (JavaScript coerces keys to strings on objects). -/
def keyStr : SetKey → String
  | .idx n => toString n
  | .name s => s

/-- Association-list update used to model a property write. -/
def propSet : List (String × JSValue) → String → JSValue →
    List (String × JSValue)
  | [], k, v => [(k, v)]
  | (k', v') :: rest, k, v =>
    if k = k' then (k, v) :: rest else (k', v') :: propSet rest k v

/-- Whether `key in target` holds for an object target. -/
def hasKey (props : List (String × JSValue)) (k : String) : Bool :=
  props.any (fun p => p.1 = k)

/-- List update with padding, modelling
`target.length = Math.max(target.length, key); target.splice(key, 1, val)`. -/
def listSetPad (l : List JSValue) (n : Nat) (v : JSValue) : List JSValue :=
  (l ++ List.replicate (n + 1 - l.length) JSValue.undef).set n v

/-- Result of `set`: the target afterwards, the returned value, whether
the development-mode warning fired, how many times `ob.dep.notify()` ran,
whether `defineReactive` was invoked for the new key, and whether the
intercepted array `splice` path was taken (its notification happens inside
the array-method interceptor, outside the analysed sources). -/
structure SetOut where
  target : Target
  ret : JSValue
  warned : Bool
  notifies : Nat
  definedReactive : Bool
  usedSplice : Bool
deriving DecidableEq, Repr

/-- The `vmCount` of the observer of a target, `0` when unobserved. -/
def vmCountOf : Option Obs → Nat
  | none => 0
  | some o => o.vmCount

/-- Embedding of `set` (`src/core/observer/index.js` lines 226-256) for
container targets (the leading dev-mode guard about `undefined`/primitive
targets is unreachable for containers).  `dev` selects the
development build. -/
def set (t : Target) (key : SetKey) (v : JSValue) (dev : Bool) : SetOut :=
  match key, t.isArray with
  | .idx n, true =>
    { target := { t with elems := listSetPad t.elems n v }, ret := v,
      warned := false, notifies := 0, definedReactive := false,
      usedSplice := true }
  | _, _ =>
    let k := keyStr key
    if hasKey t.props k then
      { target := { t with props := propSet t.props k v }, ret := v,
        warned := false, notifies := 0, definedReactive := false,
        usedSplice := false }
    else if t.isVue || vmCountOf t.ob ≠ 0 then
      { target := t, ret := v, warned := dev, notifies := 0,
        definedReactive := false, usedSplice := false }
    else
      match t.ob with
      | none =>
        { target := { t with props := propSet t.props k v }, ret := v,
          warned := false, notifies := 0, definedReactive := false,
          usedSplice := false }
      | some _ =>
        { target := { t with props := propSet t.props k v }, ret := v,
          warned := false, notifies := 1, definedReactive := true,
          usedSplice := false }

/-- Sample root-data target (observer with `vmCount = 1`) used for C7. -/
def sampleRootTarget : Target :=
  { isArray := false, elems := [], props := [("a", JSValue.numv 1)],
    isVue := false, ob := some { vmCount := 1 } }

/-- C7 counterexample: on a target whose observer has `vmCount = 1`,
`set` with a brand-new key warns (in a development build) but does NOT
store the value on the target — the target is returned unchanged, so the
claim that "the value is simply stored unobserved on the target" fails. -/
theorem set_root_data_counterexample :
    (set sampleRootTarget (SetKey.name "b") (JSValue.numv 2) true).warned
      = true ∧
    hasKey (set sampleRootTarget (SetKey.name "b")
        (JSValue.numv 2) true).target.props "b" = false ∧
    (set sampleRootTarget (SetKey.name "b") (JSValue.numv 2) true).target
      = sampleRootTarget := by
  decide

/-- C7 (amended): on an object target whose observer has nonzero
`vmCount` (or that is a Vue instance), `set` with a brand-new key is
refused: it warns exactly in development builds, notifies nothing,
defines nothing reactively, leaves the target completely unchanged, and
merely returns the value (the value is NOT stored on the target; an
unobserved plain store happens only when the target has no observer). -/
theorem set_refuses_new_root_key (t : Target) (key : SetKey)
    (v : JSValue) (dev : Bool)
    (hna : t.isArray = false)
    (hnew : hasKey t.props (keyStr key) = false)
    (hroot : t.isVue = true ∨ vmCountOf t.ob ≠ 0) :
    set t key v dev =
      { target := t, ret := v, warned := dev, notifies := 0,
        definedReactive := false, usedSplice := false } := by
  obtain ⟨ta, te, tp, tv, tob⟩ := t
  simp only at hna hnew hroot
  subst hna
  have hcond : (tv || decide (vmCountOf tob ≠ 0)) = true := by
    rcases hroot with h | h <;> simp [h]
  cases key with
  | idx n => simp_all [set]
  | name s => simp_all [set, keyStr]

theorem set_refuses_new_root_key_witness :
    set sampleRootTarget (SetKey.name "b") (JSValue.numv 3) true =
      { target := sampleRootTarget, ret := JSValue.numv 3, warned := true,
        notifies := 0, definedReactive := false, usedSplice := false } :=
  set_refuses_new_root_key sampleRootTarget (SetKey.name "b")
    (JSValue.numv 3) true rfl (by decide) (Or.inr (by decide))

/-- Pre-existing property descriptor of a key, as read by
`Object.getOwnPropertyDescriptor` in `defineReactive`. -/
structure PropDesc where
  configurable : Bool
  hasGetter : Bool
  hasSetter : Bool
deriving DecidableEq, Repr

/-- Effects of the set-up portion of `defineReactive`
(`src/core/observer/index.js` lines 145-175): the Dep-allocation counter
afterwards (`new Dep()` takes the current value as its id), whether the
accessor pair was installed by `Object.defineProperty`, whether
`observe(val)` ran for the child value, and whether `val = obj[key]` was
read. -/
structure DefineReactiveOut where
  nextDepId : Nat
  installed : Bool
  childObserveCalled : Bool
  valRead : Bool
deriving DecidableEq, Repr

/-- Embedding of the body of `defineReactive` up to
`Object.defineProperty` (`src/core/observer/index.js` lines 145-175).
`property` is the pre-existing own descriptor (`none` when the key has
none), `argLen2` records whether the function was called with exactly two
arguments, and `nextDepId` is the Dep-allocation counter: `const dep =
new Dep()` advances it unconditionally, BEFORE the
`configurable === false` bail-out. -/
def defineReactive (property : Option PropDesc) (shallow argLen2 : Bool)
    (nextDepId : Nat) : DefineReactiveOut :=
  let counterAfterDep := nextDepId + 1
  match property with
  | some p =>
    if p.configurable = false then
      { nextDepId := counterAfterDep, installed := false,
        childObserveCalled := false, valRead := false }
    else
      { nextDepId := counterAfterDep, installed := true,
        childObserveCalled := !shallow,
        valRead := (!p.hasGetter || p.hasSetter) && argLen2 }
  | none =>
    { nextDepId := counterAfterDep, installed := true,
      childObserveCalled := !shallow, valRead := argLen2 }

/-- C10 counterexample: on a key whose descriptor has
`configurable === false`, `defineReactive` does allocate a Dep before
bailing out — the Dep counter advances from 0 to 1 — so the claim that it
returns "without creating a Dep" fails at this concrete input. -/
theorem defineReactive_nonconfigurable_counterexample :
    (defineReactive
        (some { configurable := false, hasGetter := false,
                hasSetter := false }) false true 0).nextDepId = 1 ∧
    ¬(defineReactive
        (some { configurable := false, hasGetter := false,
                hasSetter := false }) false true 0).nextDepId = 0 := by
  decide

/-- C10 (amended): for a key whose existing descriptor has
`configurable === false`, `defineReactive` returns right after allocating
(and discarding) one Dep: no accessor pair is installed, the value is not
read nor recursively observed, and the property is left unchanged — so
writes to such a key never notify any Dep. -/
theorem defineReactive_nonconfigurable_bails (p : PropDesc)
    (shallow argLen2 : Bool) (n : Nat)
    (hc : p.configurable = false) :
    defineReactive (some p) shallow argLen2 n =
      { nextDepId := n + 1, installed := false,
        childObserveCalled := false, valRead := false } := by
  simp [defineReactive, hc]

theorem defineReactive_nonconfigurable_bails_witness :
    defineReactive
        (some { configurable := false, hasGetter := true,
                hasSetter := false }) false true 5 =
      { nextDepId := 6, installed := false,
        childObserveCalled := false, valRead := false } :=
  defineReactive_nonconfigurable_bails
    { configurable := false, hasGetter := true, hasSetter := false }
    false true 5 rfl

/-- Modelled from the spec: the `Dep` class (`dep.js` is not among the
analysed sources; section 4.1 of the spec describes a Subject as "ordered
set of subscribed Computations (insertion order, no duplicates)" with
idempotent `subscribe`/`unsubscribe`).  A store maps each Dep id to its
subscriber list of watcher ids. -/
def DepStore : Type := List (Nat × List Nat)

instance : DecidableEq DepStore := by
  unfold DepStore
  infer_instance

instance : Repr DepStore := by
  unfold DepStore
  infer_instance

/-- Subscriber list of the Dep with id `d` (empty when absent). -/
def subsOf : DepStore → Nat → List Nat
  | [], _ => []
  | (d', l) :: rest, d => if d = d' then l else subsOf rest d

/-- Replace the subscriber list of Dep `d`. -/
def setSubs : DepStore → Nat → List Nat → DepStore
  | [], d, l => [(d, l)]
  | (d', l') :: rest, d, l =>
    if d = d' then (d, l) :: rest else (d', l') :: setSubs rest d l

/-- Modelled from the spec: `Dep.addSub`, an idempotent append to the
ordered subscriber set. -/
def addSub (s : DepStore) (d w : Nat) : DepStore :=
  if w ∈ subsOf s d then s else setSubs s d (subsOf s d ++ [w])

/-- Modelled from the spec: `Dep.removeSub` via the `remove` util
(removes the first occurrence from the subscriber list). -/
def removeSub (s : DepStore) (d w : Nat) : DepStore :=
  setSubs s d ((subsOf s d).erase w)

theorem subsOf_setSubs (s : DepStore) (d : Nat) (l : List Nat) (e : Nat) :
    subsOf (setSubs s d l) e = if e = d then l else subsOf s e := by
  induction s with
  | nil =>
    by_cases h : e = d <;> simp [setSubs, subsOf, h]
  | cons p rest ih =>
    obtain ⟨d', l'⟩ := p
    by_cases hd : d = d'
    · subst hd
      by_cases he : e = d <;> simp [setSubs, subsOf, he]
    · by_cases he : e = d'
      · subst he
        have hne : e ≠ d := fun h => hd h.symm
        simp [setSubs, subsOf, hd, hne]
      · simp [setSubs, subsOf, hd, he, ih]

theorem subsOf_removeSub_self (s : DepStore) (d w : Nat) :
    subsOf (removeSub s d w) d = (subsOf s d).erase w := by
  simp [removeSub, subsOf_setSubs]

theorem subsOf_removeSub_ne (s : DepStore) (d w e : Nat) (h : e ≠ d) :
    subsOf (removeSub s d w) e = subsOf s e := by
  simp [removeSub, subsOf_setSubs, h]

theorem subsOf_addSub_ne (s : DepStore) (d w e : Nat) (h : e ≠ d) :
    subsOf (addSub s d w) e = subsOf s e := by
  unfold addSub
  by_cases hm : w ∈ subsOf s d
  · simp [hm]
  · simp [hm, subsOf_setSubs, h]

/-- Unconditional removal of watcher `x` from the Deps listed in `ds`,
in order (`Watcher.teardown` runs this over `deps` back to front). -/
def foldRemove (ds : List Nat) (s : DepStore) (x : Nat) : DepStore :=
  ds.foldl (fun acc e => removeSub acc e x) s

theorem foldRemove_cons (e : Nat) (rest : List Nat) (s : DepStore)
    (x : Nat) :
    foldRemove (e :: rest) s x = foldRemove rest (removeSub s e x) x := rfl

theorem foldRemove_count_le (ds : List Nat) (s : DepStore) (x d : Nat) :
    (subsOf (foldRemove ds s x) d).count x ≤ (subsOf s d).count x := by
  induction ds generalizing s with
  | nil => simp [foldRemove]
  | cons e rest ih =>
    rw [foldRemove_cons]
    refine le_trans (ih (removeSub s e x)) ?_
    by_cases he : d = e
    · subst he
      rw [subsOf_removeSub_self]
      have := List.count_erase_self x (subsOf s d)
      omega
    · rw [subsOf_removeSub_ne s e x d he]

theorem foldRemove_not_mem (ds : List Nat) (s : DepStore) (x d : Nat)
    (hd : d ∈ ds) (hc : (subsOf s d).count x ≤ 1) :
    x ∉ subsOf (foldRemove ds s x) d := by
  induction ds generalizing s with
  | nil => cases hd
  | cons e rest ih =>
    rw [foldRemove_cons]
    by_cases he : e = d
    · subst he
      have h0 : (subsOf (removeSub s e x) e).count x = 0 := by
        rw [subsOf_removeSub_self]
        have := List.count_erase_self x (subsOf s e)
        omega
      have hle := foldRemove_count_le rest (removeSub s e x) x e
      rw [h0] at hle
      intro hmem
      have hpos := List.count_pos_iff.mpr hmem
      omega
    · rcases List.mem_cons.mp hd with h | h
      · exact absurd h.symm he
      · exact ih (removeSub s e x) h
          (by rw [subsOf_removeSub_ne s e x d (fun hh => he hh.symm)]; exact hc)

/-- Embedding of the `Watcher` state (`Watcher` class fields of the
watcher source file).  `deps`/`newDeps` hold Dep ids (a `Dep` object is
identified by its id in the `DepStore`); `depIds`/`newDepIds` are the
`SimpleSet`s, modelled as duplicate-free lists. -/
structure Watcher where
  id : Nat
  expression : String
  deep : Bool
  user : Bool
  lazy : Bool
  sync : Bool
  dirty : Bool
  active : Bool
  deps : List Nat
  depIds : List Nat
  newDeps : List Nat
  newDepIds : List Nat
  value : JSValue
deriving DecidableEq, Repr

/-- Embedding of `Watcher.addDep` (watcher source lines 141-150):
record the Dep in the current-run sets unless already there, and
subscribe to it unless it was already confirmed in the previous run. -/
def Watcher.addDep (w : Watcher) (s : DepStore) (d : Nat) :
    Watcher × DepStore :=
  if d ∈ w.newDepIds then (w, s)
  else
    let w' := { w with newDepIds := w.newDepIds ++ [d],
                       newDeps := w.newDeps ++ [d] }
    if d ∈ w.depIds then (w', s) else (w', addSub s d w.id)

/-- Embedding of `Watcher.cleanupDeps` (watcher source lines 155-172):
unsubscribe from every previously-confirmed Dep not re-read this run
(iterating `deps` back to front), then swap the dependency sets and clear
the current-run ones. -/
def Watcher.cleanupDeps (w : Watcher) (s : DepStore) :
    Watcher × DepStore :=
  let s' := w.deps.reverse.foldl
    (fun acc d => if d ∈ w.newDepIds then acc else removeSub acc d w.id) s
  ({ w with depIds := w.newDepIds, newDepIds := [],
            deps := w.newDeps, newDeps := [] }, s')

/-- All the `addDep` calls of one evaluation, in read order (each Dep
read during the getter invokes `dep.depend()`, which calls `addDep` on
the active watcher). -/
def addDeps (w : Watcher) (s : DepStore) (ds : List Nat) :
    Watcher × DepStore :=
  ds.foldl (fun p d => Watcher.addDep p.1 p.2 d) (w, s)

theorem addDeps_cons (w : Watcher) (s : DepStore) (d : Nat)
    (rest : List Nat) :
    addDeps w s (d :: rest) =
      addDeps (w.addDep s d).1 (w.addDep s d).2 rest := rfl

theorem addDep_deps (w : Watcher) (s : DepStore) (d : Nat) :
    (w.addDep s d).1.deps = w.deps ∧ (w.addDep s d).1.depIds = w.depIds ∧
    (w.addDep s d).1.id = w.id := by
  unfold Watcher.addDep
  by_cases h1 : d ∈ w.newDepIds
  · simp [h1]
  · by_cases h2 : d ∈ w.depIds <;> simp [h1, h2]

theorem addDeps_deps (ds : List Nat) (w : Watcher) (s : DepStore) :
    (addDeps w s ds).1.deps = w.deps ∧
    (addDeps w s ds).1.depIds = w.depIds ∧
    (addDeps w s ds).1.id = w.id := by
  induction ds generalizing w s with
  | nil => simp [addDeps]
  | cons d rest ih =>
    rw [addDeps_cons]
    obtain ⟨h1, h2, h3⟩ := addDep_deps w s d
    obtain ⟨g1, g2, g3⟩ := ih (w.addDep s d).1 (w.addDep s d).2
    exact ⟨g1.trans h1, g2.trans h2, g3.trans h3⟩

theorem addDep_newDepIds (w : Watcher) (s : DepStore) (d e : Nat) :
    (e ∈ (w.addDep s d).1.newDepIds ↔ e ∈ w.newDepIds ∨ e = d) := by
  unfold Watcher.addDep
  by_cases h1 : d ∈ w.newDepIds
  · simp [h1]
    intro he; subst he; exact h1
  · by_cases h2 : d ∈ w.depIds <;> simp [h1, h2]

theorem addDeps_newDepIds (ds : List Nat) (w : Watcher) (s : DepStore)
    (e : Nat) :
    (e ∈ (addDeps w s ds).1.newDepIds ↔ e ∈ w.newDepIds ∨ e ∈ ds) := by
  induction ds generalizing w s with
  | nil => simp [addDeps]
  | cons d rest ih =>
    rw [addDeps_cons, ih]
    rw [addDep_newDepIds]
    simp [List.mem_cons]
    tauto

theorem addDep_newDeps_eq (w : Watcher) (s : DepStore) (d : Nat)
    (h : w.newDeps = w.newDepIds) :
    (w.addDep s d).1.newDeps = (w.addDep s d).1.newDepIds := by
  unfold Watcher.addDep
  by_cases h1 : d ∈ w.newDepIds
  · simp [h1, h]
  · by_cases h2 : d ∈ w.depIds <;> simp [h1, h2, h]

theorem addDeps_newDeps_eq (ds : List Nat) (w : Watcher) (s : DepStore)
    (h : w.newDeps = w.newDepIds) :
    (addDeps w s ds).1.newDeps = (addDeps w s ds).1.newDepIds := by
  induction ds generalizing w s with
  | nil => simpa [addDeps] using h
  | cons d rest ih =>
    rw [addDeps_cons]
    exact ih _ _ (addDep_newDeps_eq w s d h)

theorem addDep_subsOf_ne (w : Watcher) (s : DepStore) (d e : Nat)
    (h : e ≠ d) : subsOf (w.addDep s d).2 e = subsOf s e := by
  unfold Watcher.addDep
  by_cases h1 : d ∈ w.newDepIds
  · simp [h1]
  · by_cases h2 : d ∈ w.depIds
    · simp [h1, h2]
    · simp [h1, h2, subsOf_addSub_ne s d w.id e h]

theorem addDeps_subsOf_ne (ds : List Nat) (w : Watcher) (s : DepStore)
    (e : Nat) (h : e ∉ ds) :
    subsOf (addDeps w s ds).2 e = subsOf s e := by
  induction ds generalizing w s with
  | nil => simp [addDeps]
  | cons d rest ih =>
    rw [addDeps_cons]
    have hne : e ≠ d := fun hh => h (hh ▸ List.mem_cons_self d rest)
    rw [ih _ _ (fun hh => h (List.mem_cons_of_mem d hh)),
      addDep_subsOf_ne w s d e hne]

/-- Filtered folds with identity steps equal the fold over the filtered
list; relates the conditional removal loop of `cleanupDeps` to
`foldRemove`. -/
theorem foldl_ite_filter (p : Nat → Prop) [DecidablePred p]
    (f : DepStore → Nat → DepStore) (ds : List Nat) (s : DepStore) :
    ds.foldl (fun acc d => if p d then acc else f acc d) s =
      (ds.filter (fun d => !decide (p d))).foldl f s := by
  induction ds generalizing s with
  | nil => simp
  | cons d rest ih =>
    by_cases h : p d <;> simp [h, ih]

/-- C2: after a run — all `addDep` calls of the evaluation followed by
`cleanupDeps` — the confirmed-dependency sets (`deps` and `depIds`) hold
exactly the Deps recorded via `addDep` during the run; every
previously-confirmed Dep not re-read has this watcher removed from its
subscriber list (given the no-duplicate-subscription invariant); and the
current-run sets are left empty for the next run. -/
theorem cleanupDeps_reconciles (w : Watcher) (s : DepStore)
    (reads : List Nat)
    (h1 : w.newDeps = []) (h2 : w.newDepIds = [])
    (hcount : ∀ d ∈ w.deps, (subsOf s d).count w.id ≤ 1) :
    (∀ e, e ∈ ((addDeps w s reads).1.cleanupDeps
        (addDeps w s reads).2).1.depIds ↔ e ∈ reads) ∧
    (∀ e, e ∈ ((addDeps w s reads).1.cleanupDeps
        (addDeps w s reads).2).1.deps ↔ e ∈ reads) ∧
    (∀ e ∈ w.deps, e ∉ reads →
      w.id ∉ subsOf ((addDeps w s reads).1.cleanupDeps
        (addDeps w s reads).2).2 e) ∧
    ((addDeps w s reads).1.cleanupDeps (addDeps w s reads).2).1.newDeps
      = [] ∧
    ((addDeps w s reads).1.cleanupDeps (addDeps w s reads).2).1.newDepIds
      = [] := by
  obtain ⟨hdeps, hdepIds, hid⟩ := addDeps_deps reads w s
  have hmemNew : ∀ e, e ∈ (addDeps w s reads).1.newDepIds ↔ e ∈ reads := by
    intro e
    rw [addDeps_newDepIds, h2]
    simp
  have hnewEq : (addDeps w s reads).1.newDeps
      = (addDeps w s reads).1.newDepIds :=
    addDeps_newDeps_eq reads w s (h1.trans h2.symm)
  refine ⟨?_, ?_, ?_, ?_, ?_⟩
  · intro e
    simp only [Watcher.cleanupDeps]
    exact hmemNew e
  · intro e
    simp only [Watcher.cleanupDeps, hnewEq]
    exact hmemNew e
  · intro e he hr
    simp only [Watcher.cleanupDeps]
    rw [foldl_ite_filter (fun d => d ∈ (addDeps w s reads).1.newDepIds)
      (fun acc d => removeSub acc d (addDeps w s reads).1.id)]
    rw [hid]
    have hsub : subsOf (addDeps w s reads).2 e = subsOf s e :=
      addDeps_subsOf_ne reads w s e hr
    have hemem : e ∈ (addDeps w s reads).1.deps.reverse.filter
        (fun d => !decide (d ∈ (addDeps w s reads).1.newDepIds)) := by
      rw [List.mem_filter]
      refine ⟨List.mem_reverse.mpr (hdeps ▸ he), ?_⟩
      simp only [Bool.not_eq_true']
      rw [decide_eq_false_iff_not]
      intro hmem
      exact hr ((hmemNew e).mp hmem)
    have hcnt : (subsOf (addDeps w s reads).2 e).count w.id ≤ 1 := by
      rw [hsub]; exact hcount e he
    exact foldRemove_not_mem _ (addDeps w s reads).2 w.id e hemem hcnt
  · simp [Watcher.cleanupDeps]
  · simp [Watcher.cleanupDeps]

/-- Sample watcher (id 1, two confirmed deps) used by witnesses. -/
def sampleWatcher : Watcher :=
  { id := 1, expression := "a + b", deep := false, user := false,
    lazy := false, sync := false, dirty := false, active := true,
    deps := [10, 20], depIds := [10, 20], newDeps := [], newDepIds := [],
    value := JSValue.numv 3 }

/-- Sample dep store: deps 10 and 20 each have watcher 1 subscribed. -/
def sampleStore : DepStore := [(10, [1]), (20, [1])]

theorem cleanupDeps_reconciles_witness :
    (∀ e, e ∈ ((addDeps sampleWatcher sampleStore [20, 30]).1.cleanupDeps
        (addDeps sampleWatcher sampleStore [20, 30]).2).1.depIds ↔
      e ∈ [20, 30]) ∧
    (1 ∉ subsOf ((addDeps sampleWatcher sampleStore [20, 30]).1.cleanupDeps
        (addDeps sampleWatcher sampleStore [20, 30]).2).2 10) := by
  have h := cleanupDeps_reconciles sampleWatcher sampleStore [20, 30]
    rfl rfl (by decide)
  exact ⟨h.1, h.2.2.1 10 (by decide) (by decide)⟩

/-- The three dispatch outcomes of `Watcher.update`: mark dirty (lazy),
run synchronously in place, or hand off to the scheduler operation
`queueWatcher` (whose queue lives outside the analysed sources). -/
inductive UpdateAction where
  | markDirty
  | runNow
  | queued
deriving DecidableEq, Repr

/-- Embedding of `Watcher.update` (watcher source lines 178-187). -/
def Watcher.update (w : Watcher) : Watcher × UpdateAction :=
  if w.lazy then ({ w with dirty := true }, .markDirty)
  else if w.sync then (w, .runNow)
  else (w, .queued)

/-- C5: `update()` performs exactly one of three actions, determined by
the flags: lazy watchers only get their dirty flag set (no re-run and no
other state change), non-lazy synchronous watchers run immediately, and
all remaining watchers are handed to the scheduler queue (unchanged). -/
theorem update_dispatch (w : Watcher) :
    (w.lazy = true →
      w.update = ({ w with dirty := true }, UpdateAction.markDirty)) ∧
    (w.lazy = false → w.sync = true →
      w.update = (w, UpdateAction.runNow)) ∧
    (w.lazy = false → w.sync = false →
      w.update = (w, UpdateAction.queued)) := by
  refine ⟨?_, ?_, ?_⟩
  · intro h; simp [Watcher.update, h]
  · intro h1 h2; simp [Watcher.update, h1, h2]
  · intro h1 h2; simp [Watcher.update, h1, h2]

theorem update_dispatch_witness :
    sampleWatcher.update = (sampleWatcher, UpdateAction.queued) :=
  (update_dispatch sampleWatcher).2.2 rfl rfl

/-- State of the owning vm consulted by `teardown`: the `_watchers` list
and the `_isBeingDestroyed` flag. -/
structure VmState where
  watchers : List Nat
  isBeingDestroyed : Bool
deriving DecidableEq, Repr

/-- Embedding of `Watcher.teardown` (watcher source lines 246-260):
if still active, remove self from the watcher list of the vm (unless the vm is
being destroyed), unsubscribe from every confirmed Dep (back to front),
and mark inactive; otherwise do nothing. -/
def Watcher.teardown (w : Watcher) (s : DepStore) (vm : VmState) :
    Watcher × DepStore × VmState :=
  if w.active then
    let vm' := if vm.isBeingDestroyed then vm
      else { vm with watchers := vm.watchers.erase w.id }
    let s' := w.deps.reverse.foldl (fun acc d => removeSub acc d w.id) s
    ({ w with active := false }, s', vm')
  else (w, s, vm)
/-- Outcome of running a JavaScript function: a normal return value or a
thrown exception. -/
inductive JSOutcome where
  | throws
  | returns (v : JSValue)
deriving DecidableEq, Repr

/-- Result of `Watcher.get`: the outcome (the caught-and-reported user
case returns `undefined`), the watcher and dep store after the `finally`
block, the target stack after `popTarget`, and the messages reported
through `handleError` (modelled from the spec as an error log; the
message carries the expression label of the watcher). -/
structure GetOut where
  res : JSOutcome
  w : Watcher
  store : DepStore
  stack : List Nat
  errs : List String
deriving DecidableEq, Repr

/-- The Dep ids recorded by `traverse(value)` in the `finally` block: the
traversal touches dependencies only for a deep watcher whose getter
returned normally (when the getter threw, `value` is `undefined` and the
traversal reads nothing). -/
def deepReads (w : Watcher) (getterResult : JSOutcome)
    (traverseReads : List Nat) : List Nat :=
  match getterResult with
  | .returns _ => if w.deep then traverseReads else []
  | .throws => []

/-- Embedding of `Watcher.get` (watcher source lines 111-136).
`pushTarget`/`popTarget` (from `dep.js`, outside the analysed sources)
are modelled from the spec as an explicit stack of watcher ids.  `reads`
are the Dep ids whose getters ran during the evaluation (each calls
`addDep` on the active watcher), and `getterResult` is the outcome of
the evaluator. -/
def Watcher.get (w : Watcher) (s : DepStore) (stack : List Nat)
    (getterResult : JSOutcome) (reads traverseReads : List Nat) : GetOut :=
  let stack1 := stack ++ [w.id]
  let p1 := addDeps w s reads
  let caught : JSOutcome × List String :=
    match getterResult with
    | .returns v => (.returns v, [])
    | .throws =>
      if w.user then
        (.returns JSValue.undef, ["getter for watcher " ++ w.expression])
      else (.throws, [])
  let p2 := addDeps p1.1 p1.2 (deepReads w getterResult traverseReads)
  let p3 := p2.1.cleanupDeps p2.2
  { res := caught.1, w := p3.1, store := p3.2, stack := stack1.dropLast,
    errs := caught.2 }

theorem get_w_eq (w : Watcher) (s : DepStore) (stack : List Nat)
    (gr : JSOutcome) (reads tr : List Nat) :
    (w.get s stack gr reads tr).w =
      ((addDeps (addDeps w s reads).1 (addDeps w s reads).2
          (deepReads w gr tr)).1.cleanupDeps
        (addDeps (addDeps w s reads).1 (addDeps w s reads).2
          (deepReads w gr tr)).2).1 := rfl

theorem get_stack_eq (w : Watcher) (s : DepStore) (stack : List Nat)
    (gr : JSOutcome) (reads tr : List Nat) :
    (w.get s stack gr reads tr).stack = (stack ++ [w.id]).dropLast := rfl

/-- Result of `Watcher.run`: whether an exception escaped, the final
watcher/store/stack state, the `handleError` log, and the callback
invocations as `(newValue, oldValue)` pairs. -/
structure RunOut where
  threw : Bool
  w : Watcher
  store : DepStore
  stack : List Nat
  errs : List String
  calls : List (JSValue × JSValue)
deriving DecidableEq, Repr

/-- Embedding of `Watcher.run` (watcher source lines 193-222): a no-op
when inactive; otherwise re-evaluate via `get`, and invoke the callback
with `(value, oldValue)` unless the value is strictly equal to the cached
one, not an object, and the watcher is not deep.  An exception in a user
callback is caught and reported; an exception in a non-user callback
escapes (`cbThrows` says whether the callback would throw). -/
def Watcher.run (w : Watcher) (s : DepStore) (stack : List Nat)
    (getterResult : JSOutcome) (reads traverseReads : List Nat)
    (cbThrows : Bool) : RunOut :=
  if w.active then
    let g := w.get s stack getterResult reads traverseReads
    match g.res with
    | .throws =>
      { threw := true, w := g.w, store := g.store, stack := g.stack,
        errs := g.errs, calls := [] }
    | .returns value =>
      if !jsEq value g.w.value || isObjectV value || g.w.deep then
        let oldValue := g.w.value
        let w2 := { g.w with value := value }
        if w2.user then
          { threw := false, w := w2, store := g.store, stack := g.stack,
            errs := g.errs ++
              (if cbThrows then ["callback for watcher " ++ w.expression]
               else []),
            calls := [(value, oldValue)] }
        else
          { threw := cbThrows, w := w2, store := g.store, stack := g.stack,
            errs := g.errs, calls := [(value, oldValue)] }
      else
        { threw := false, w := g.w, store := g.store, stack := g.stack,
          errs := g.errs, calls := [] }
  else
    { threw := false, w := w, store := s, stack := stack, errs := [],
      calls := [] }

theorem addDep_misc (w : Watcher) (s : DepStore) (d : Nat) :
    (w.addDep s d).1.value = w.value ∧ (w.addDep s d).1.deep = w.deep ∧
    (w.addDep s d).1.user = w.user ∧ (w.addDep s d).1.active = w.active := by
  unfold Watcher.addDep
  by_cases h1 : d ∈ w.newDepIds
  · simp [h1]
  · by_cases h2 : d ∈ w.depIds <;> simp [h1, h2]

theorem addDeps_misc (ds : List Nat) (w : Watcher) (s : DepStore) :
    (addDeps w s ds).1.value = w.value ∧
    (addDeps w s ds).1.deep = w.deep ∧
    (addDeps w s ds).1.user = w.user ∧
    (addDeps w s ds).1.active = w.active := by
  induction ds generalizing w s with
  | nil => simp [addDeps]
  | cons d rest ih =>
    rw [addDeps_cons]
    obtain ⟨h1, h2, h3, h4⟩ := addDep_misc w s d
    obtain ⟨g1, g2, g3, g4⟩ := ih (w.addDep s d).1 (w.addDep s d).2
    exact ⟨g1.trans h1, g2.trans h2, g3.trans h3, g4.trans h4⟩

theorem cleanupDeps_misc (w : Watcher) (s : DepStore) :
    (w.cleanupDeps s).1.value = w.value ∧
    (w.cleanupDeps s).1.deep = w.deep ∧
    (w.cleanupDeps s).1.user = w.user ∧
    (w.cleanupDeps s).1.active = w.active := by
  simp [Watcher.cleanupDeps]

theorem get_w_misc (w : Watcher) (s : DepStore) (stack : List Nat)
    (gr : JSOutcome) (reads tr : List Nat) :
    (w.get s stack gr reads tr).w.value = w.value ∧
    (w.get s stack gr reads tr).w.deep = w.deep ∧
    (w.get s stack gr reads tr).w.user = w.user := by
  rw [get_w_eq]
  obtain ⟨c1, c2, c3, c4⟩ := cleanupDeps_misc
    (addDeps (addDeps w s reads).1 (addDeps w s reads).2
      (deepReads w gr tr)).1
    (addDeps (addDeps w s reads).1 (addDeps w s reads).2
      (deepReads w gr tr)).2
  obtain ⟨b1, b2, b3, b4⟩ := addDeps_misc (deepReads w gr tr)
    (addDeps w s reads).1 (addDeps w s reads).2
  obtain ⟨a1, a2, a3, a4⟩ := addDeps_misc reads w s
  exact ⟨c1.trans (b1.trans a1), c2.trans (b2.trans a2),
    c3.trans (b3.trans a3)⟩

theorem get_res_returns (w : Watcher) (s : DepStore) (stack : List Nat)
    (v : JSValue) (reads tr : List Nat) :
    (w.get s stack (JSOutcome.returns v) reads tr).res
      = JSOutcome.returns v := rfl

/-- C6: when the evaluator throws during `get()`, a user watcher has the
exception caught and reported through the error channel with its
expression label and `get` completes returning `undefined`, while a
non-user watcher re-throws to the caller; in both cases the
active-watcher stack is popped back to its previous state and the
dependency sets are reconciled in the `finally` block (current-run sets
cleared, confirmed set equal to the Deps actually read before the
throw). -/
theorem get_error_handling (w : Watcher) (s : DepStore)
    (stack : List Nat) (reads tr : List Nat) :
    (w.user = true →
      (w.get s stack JSOutcome.throws reads tr).res
          = JSOutcome.returns JSValue.undef ∧
      (w.get s stack JSOutcome.throws reads tr).errs
          = ["getter for watcher " ++ w.expression]) ∧
    (w.user = false →
      (w.get s stack JSOutcome.throws reads tr).res = JSOutcome.throws ∧
      (w.get s stack JSOutcome.throws reads tr).errs = []) ∧
    (w.get s stack JSOutcome.throws reads tr).stack = stack ∧
    (w.get s stack JSOutcome.throws reads tr).w.newDeps = [] ∧
    (w.get s stack JSOutcome.throws reads tr).w.newDepIds = [] ∧
    (w.newDepIds = [] → ∀ e,
      e ∈ (w.get s stack JSOutcome.throws reads tr).w.depIds ↔
        e ∈ reads) := by
  refine ⟨?_, ?_, ?_, ?_, ?_, ?_⟩
  · intro hu; simp [Watcher.get, hu]
  · intro hu; simp [Watcher.get, hu]
  · rw [get_stack_eq, List.dropLast_concat]
  · rw [get_w_eq]; simp [Watcher.cleanupDeps]
  · rw [get_w_eq]; simp [Watcher.cleanupDeps]
  · intro h0 e
    rw [get_w_eq]
    simp only [Watcher.cleanupDeps]
    rw [addDeps_newDepIds, addDeps_newDepIds, h0]
    simp [deepReads]

theorem get_error_handling_witness :
    ((sampleWatcher.get sampleStore [] JSOutcome.throws [10] []).res
        = JSOutcome.throws ∧
      (sampleWatcher.get sampleStore [] JSOutcome.throws [10] []).errs
        = []) ∧
    (sampleWatcher.get sampleStore [] JSOutcome.throws [10] []).stack
        = [] := by
  have h := get_error_handling sampleWatcher sampleStore [] [10] []
  exact ⟨h.2.1 rfl, h.2.2.1⟩

/-- C4: for an active watcher whose evaluation succeeds (and whose
callback does not throw), `run()` skips the callback exactly when the new
value is strictly equal to the cached value, is not object-typed, and the
watcher is not deep; in every other case the callback is invoked exactly
once with `(newValue, oldValue)` and the cached value has been updated to
the new value before the call. -/
theorem run_callback_condition (w : Watcher) (s : DepStore)
    (stack : List Nat) (v : JSValue) (reads tr : List Nat)
    (hA : w.active = true) :
    ((w.run s stack (JSOutcome.returns v) reads tr false).calls = [] ↔
      (jsEq v w.value = true ∧ isObjectV v = false ∧ w.deep = false)) ∧
    ((jsEq v w.value = false ∨ isObjectV v = true ∨ w.deep = true) →
      (w.run s stack (JSOutcome.returns v) reads tr false).calls
          = [(v, w.value)] ∧
      (w.run s stack (JSOutcome.returns v) reads tr false).w.value = v) := by
  obtain ⟨hval, hdeep, huser⟩ :=
    get_w_misc w s stack (JSOutcome.returns v) reads tr
  have hfire : (w.run s stack (JSOutcome.returns v) reads tr false).calls
      = (if !jsEq v w.value || isObjectV v || w.deep
         then [(v, w.value)] else ([] : List (JSValue × JSValue))) ∧
      ((!jsEq v w.value || isObjectV v || w.deep) = true →
        (w.run s stack (JSOutcome.returns v) reads tr false).w.value
          = v) := by
    unfold Watcher.run
    rw [hA]
    simp only [if_true, get_res_returns, hval, hdeep]
    by_cases hc : (!jsEq v w.value || isObjectV v || w.deep) = true
    · rw [hc]
      simp only [if_true]
      by_cases hu : (w.get s stack (JSOutcome.returns v) reads tr).w.user
          = true
      · simp [hu, hc]
      · simp only [Bool.not_eq_true] at hu
        simp [hu, hc]
    · simp only [Bool.not_eq_true] at hc
      rw [hc]
      simp [hc]
  constructor
  · rw [hfire.1]
    cases h1 : jsEq v w.value <;> cases h2 : isObjectV v <;>
      cases h3 : w.deep <;> simp [h1, h2, h3]
  · intro hor
    have hc : (!jsEq v w.value || isObjectV v || w.deep) = true := by
      rcases hor with h | h | h <;> simp [h]
    exact ⟨by rw [hfire.1, if_pos hc], hfire.2 hc⟩

theorem run_callback_condition_witness :
    (sampleWatcher.run sampleStore [] (JSOutcome.returns (JSValue.numv 4))
        [10] [] false).calls = [(JSValue.numv 4, JSValue.numv 3)] ∧
    (sampleWatcher.run sampleStore [] (JSOutcome.returns (JSValue.numv 4))
        [10] [] false).w.value = JSValue.numv 4 :=
  (run_callback_condition sampleWatcher sampleStore []
    (JSValue.numv 4) [10] [] rfl).2 (Or.inl (by decide))

/-- C9: tearing down an active watcher removes it from the subscriber
list of every confirmed Dep (given the no-duplicate-subscription
invariant) and marks it inactive; teardown is idempotent (a second call
returns every component unchanged); and `run()` on the torn-down watcher
is a no-op that invokes no callback and changes no state. -/
theorem teardown_unsubscribes (w : Watcher) (s : DepStore) (vm : VmState)
    (hactive : w.active = true)
    (hcount : ∀ d ∈ w.deps, (subsOf s d).count w.id ≤ 1) :
    (∀ d ∈ w.deps, w.id ∉ subsOf (w.teardown s vm).2.1 d) ∧
    (w.teardown s vm).1.active = false ∧
    Watcher.teardown (w.teardown s vm).1 (w.teardown s vm).2.1
        (w.teardown s vm).2.2 = w.teardown s vm ∧
    (∀ s' stack gr reads tr cbT,
      Watcher.run (w.teardown s vm).1 s' stack gr reads tr cbT =
        { threw := false, w := (w.teardown s vm).1, store := s',
          stack := stack, errs := [], calls := [] }) := by
  have ht : w.teardown s vm =
      ({ w with active := false },
        w.deps.reverse.foldl (fun acc d => removeSub acc d w.id) s,
        if vm.isBeingDestroyed then vm
        else { vm with watchers := vm.watchers.erase w.id }) := by
    unfold Watcher.teardown
    rw [hactive]
    simp
  refine ⟨?_, ?_, ?_, ?_⟩
  · intro d hd
    rw [ht]
    exact foldRemove_not_mem w.deps.reverse s w.id d
      (List.mem_reverse.mpr hd) (hcount d hd)
  · rw [ht]
  · rw [ht]
    unfold Watcher.teardown
    simp
  · intro s' stack gr reads tr cbT
    rw [ht]
    unfold Watcher.run
    simp

theorem teardown_unsubscribes_witness :
    (1 ∉ subsOf (sampleWatcher.teardown sampleStore
        { watchers := [1], isBeingDestroyed := false }).2.1 10) ∧
    (sampleWatcher.teardown sampleStore
        { watchers := [1], isBeingDestroyed := false }).1.active = false := by
  have h := teardown_unsubscribes sampleWatcher sampleStore
    { watchers := [1], isBeingDestroyed := false } rfl (by decide)
  exact ⟨h.1 10 (by decide), h.2.1⟩

end VueReactivity
